import Mathlib

/-!
Verification development for the `elastic-pii-proxy` repository.

The repository is an MCP proxy that redacts PII from upstream tool/resource
responses and emits an audit record per tool invocation.  This file gives a
shallow embedding of the core:

* the stage-1 pattern engine (`src/lib/piiRedaction.ts`): the five regex
  patterns with their masks, the string scanner, and the recursive walker;
* the stage-2 NER wrapper (`src/lib/comprehendClient.ts`): chunking,
  pre-filter, span replacement;
* the PII middlewares (`src/middlewares/piiRedaction.ts`);
* the audit middleware and logger (`src/middlewares/audit.ts`,
  `src/lib/auditLogger.ts`);
* a middleware composition kernel (the `mcpose` package is not part of the
  sources; it is modelled from the spec's onion contract).

Strings are modelled as `List Char` (Unicode scalar values).  JavaScript
strings are UTF-16; the divergence (lone surrogates, astral `.length`
accounting) is irrelevant for every input used below, and UTF-16 widths are
modelled explicitly where the code counts code units.  Wall-clock time is
modelled by a logical clock that advances on every observable action.
-/

namespace EPP

/-! ## Character classes (JS regex, no `u` flag) -/

/-- `\d` of JS regexes: the ASCII digits. -/
def isDigitCh (c : Char) : Bool := 48 ≤ c.toNat && c.toNat ≤ 57

/-- ASCII uppercase letter `[A-Z]`. -/
def isUpperCh (c : Char) : Bool := 65 ≤ c.toNat && c.toNat ≤ 90

/-- ASCII lowercase letter `[a-z]`. -/
def isLowerCh (c : Char) : Bool := 97 ≤ c.toNat && c.toNat ≤ 122

/-- ASCII letter `[a-zA-Z]`. -/
def isAlphaCh (c : Char) : Bool := isUpperCh c || isLowerCh c

/-- Word character for `\b` in a non-unicode JS regex: `[A-Za-z0-9_]`. -/
def isWordCh (c : Char) : Bool := isAlphaCh c || isDigitCh c || c = '_'

/-- `\s` of JS regexes: ASCII whitespace plus the Unicode space characters. -/
def isSpaceCh (c : Char) : Bool :=
  let n := c.toNat
  (9 ≤ n && n ≤ 13) || n = 32 || n = 0xa0 || n = 0x1680 ||
  (0x2000 ≤ n && n ≤ 0x200a) || n = 0x2028 || n = 0x2029 ||
  n = 0x202f || n = 0x205f || n = 0x3000 || n = 0xfeff

/-- Whether the character left of the current position is a word character
(`none` = start of string, which counts as non-word). -/
def optWordCh : Option Char → Bool
  | some c => isWordCh c
  | none => false

/-- `\b` between a previous character and the character `c` standing at the
current position: exactly one of the two sides is a word character. -/
def boundaryB (prev : Option Char) (c : Char) : Bool := optWordCh prev != isWordCh c

/-- `\b` after a just-consumed character `last`, looking at the rest of the
input (`[]` = end of string, which counts as non-word). -/
def endBoundary (last : Char) (rest : List Char) : Bool :=
  isWordCh last != (match rest with | [] => false | c :: _ => isWordCh c)

/-- `\b` after a just-consumed word character (digit or letter), looking at
the rest of the input: end of input, or a non-word character next. -/
def tailBoundary (rest : List Char) : Bool :=
  match rest with
  | [] => true
  | c :: _ => !isWordCh c

/-! ## Luhn check (`luhnCheck` in `src/lib/piiRedaction.ts`) -/

/-- Numeric value of an ASCII digit (`parseInt(digits[i], 10)`). -/
def digitVal (c : Char) : Nat := c.toNat - 48

/-- The loop body of `luhnCheck`, walking the digits from the right with the
`alternate` flag: every second digit is doubled and reduced. -/
def luhnSum : List Nat → Bool → Nat
  | [], _ => 0
  | d :: rest, alt =>
      (if alt then (if d * 2 > 9 then d * 2 - 9 else d * 2) else d) + luhnSum rest (!alt)

/-- `luhnCheck(num)`: strip non-digits, run the mod-10 checksum from the
rightmost digit with alternate doubling. -/
def luhnCheck (num : List Char) : Bool :=
  luhnSum (((num.filter isDigitCh).reverse).map digitVal) false % 10 = 0

/-! ## The five stage-1 masks (the `mask` closures in `PATTERNS`) -/

/-- Mask for `credit_card`: strip non-digits, require 16 Luhn-valid digits,
else return the match untouched; on accept keep the last 4 digits and reuse
`-`/space as separator when the match contained one. -/
def ccMask (m : List Char) : List Char :=
  let digits := m.filter isDigitCh
  if digits.length ≠ 16 || !luhnCheck digits then m
  else
    let last4 := digits.drop (digits.length - 4)
    let sep : List Char :=
      if m.contains '-' then ['-'] else if m.contains ' ' then [' '] else []
    "****".data ++ sep ++ "****".data ++ sep ++ "****".data ++ sep ++ last4

/-- Mask for `iban`: matches shorter than 15 characters are returned
untouched; otherwise first four characters, `****`, last four characters. -/
def ibanMask (m : List Char) : List Char :=
  if m.length < 15 then m
  else m.take 4 ++ "****".data ++ m.drop (m.length - 4)

/-- Mask for `ssn`: the constant `***-**-****`. -/
def ssnMask (_ : List Char) : List Char := "***-**-****".data

/-- Mask for `email`: first character of the local part, `***@`, then the
domain.  The matcher guarantees exactly one `@` inside the match. -/
def emailMask (m : List Char) : List Char :=
  let lcl := m.takeWhile (· ≠ '@')
  let domain := (m.drop (lcl.length + 1)).takeWhile (· ≠ '@')
  lcl.take 1 ++ "***@".data ++ domain

/-- Mask for `phone`: strip non-digits; fewer than 8 digits are returned
untouched; otherwise `+`, first two digits, `***`, last two digits. -/
def phoneMask (m : List Char) : List Char :=
  let digits := m.filter isDigitCh
  if digits.length < 8 then m
  else '+' :: digits.take 2 ++ "***".data ++ digits.drop (digits.length - 2)

/-! ## The five stage-1 matchers

Each matcher receives the character before the current position (for `\b`)
and the rest of the string, and returns the length of the regex match
starting exactly at the current position, or `none`.  They are hand-compiled
from the regexes in `PATTERNS`, preserving the greedy/backtracking
behaviour of the JS engine (analysed per pattern in the comments). -/

/-- First `n` characters are all ASCII digits (and there are at least `n`). -/
def digitsN (n : Nat) (cs : List Char) : Bool :=
  (cs.take n).length = n && (cs.take n).all isDigitCh

/-- Separator class `[\s-]` of the credit-card regex. -/
def isCcSep (c : Char) : Bool := isSpaceCh c || c = '-'

/-- One `[\s-]?\d{4}` group of the credit-card regex.  Taking the optional
separator is only viable when four digits follow (otherwise the greedy
attempt backtracks to the empty separator, which then fails on the
separator character itself). -/
def ccGroup (cs : List Char) : Option Nat :=
  match cs with
  | [] => none
  | c :: rest =>
      if isCcSep c && digitsN 4 rest then some 5
      else if digitsN 4 cs then some 4 else none

/-- Matcher for `\b(\d{4}[\s-]?\d{4}[\s-]?\d{4}[\s-]?\d{4})\b`.  The first
character of any match is a digit, so the leading `\b` amounts to the
previous character being non-word. -/
def ccMatch (prev : Option Char) (cs : List Char) : Option Nat :=
  if optWordCh prev then none
  else if digitsN 4 cs then
    match ccGroup (cs.drop 4) with
    | none => none
    | some n2 =>
      match ccGroup (cs.drop (4 + n2)) with
      | none => none
      | some n3 =>
        match ccGroup (cs.drop (4 + n2 + n3)) with
        | none => none
        | some n4 =>
          let total := 4 + n2 + n3 + n4
          -- the last consumed character is a digit, so the trailing `\b`
          -- asks for end of input or a non-word character
          if tailBoundary (cs.drop total) then some total else none
  else none

/-- The IBAN body class `[A-Z0-9]`. -/
def isIbanCh (c : Char) : Bool := isUpperCh c || isDigitCh c

/-- Matcher for `\b([A-Z]{2}\d{2}[A-Z0-9]{4,30})\b`.  The greedy body takes
the maximal `[A-Z0-9]` run: giving characters back can never restore the
trailing `\b` because the returned character is itself a word character, so
the match succeeds exactly when the maximal run has length 4–30 and is
followed by end of input or a non-word character. -/
def ibanMatch (prev : Option Char) (cs : List Char) : Option Nat :=
  if optWordCh prev then none
  else
    match cs with
    | c1 :: c2 :: c3 :: c4 :: rest =>
        if isUpperCh c1 && isUpperCh c2 && isDigitCh c3 && isDigitCh c4 then
          let run := rest.takeWhile isIbanCh
          if run.length < 4 || 30 < run.length then none
          else if tailBoundary (rest.drop run.length) then some (4 + run.length)
          else none
        else none
    | _ => none

/-- Matcher for `\b(\d{3}-\d{2}-\d{4})\b`. -/
def ssnMatch (prev : Option Char) (cs : List Char) : Option Nat :=
  if optWordCh prev then none
  else
    match cs with
    | a :: b :: c :: h1 :: d :: e :: h2 :: f :: g :: h :: i :: rest =>
        if isDigitCh a && isDigitCh b && isDigitCh c && h1 = '-' &&
           isDigitCh d && isDigitCh e && h2 = '-' &&
           isDigitCh f && isDigitCh g && isDigitCh h && isDigitCh i then
          if tailBoundary rest then some 11 else none
        else none
    | _ => none

/-- Local-part class `[a-zA-Z0-9._%+-]` of the email regex. -/
def isLocalCh (c : Char) : Bool :=
  isAlphaCh c || isDigitCh c || c = '.' || c = '_' || c = '%' || c = '+' || c = '-'

/-- Domain class `[a-zA-Z0-9.-]` of the email regex. -/
def isDomainCh (c : Char) : Bool := isAlphaCh c || isDigitCh c || c = '.' || c = '-'

/-- Backtracking search for the split of the domain run `R` into
`[a-zA-Z0-9.-]+` `\.` `[a-zA-Z]{2,}` followed by `\b`.  The greedy `+`
prefers the longest prefix, so split points `p` are tried from the largest
one downwards; at each `p` the character `R[p]` must be `.`, the TLD is the
maximal letter run after it, and the trailing `\b` looks at the character
behind the TLD (`afterR` is the input behind the run `R`). -/
def emailDomainSplit (R afterR : List Char) : Nat → Option Nat
  | 0 => none
  | p + 1 =>
      (if (R.drop (p + 1)).head? = some '.' then
        let L := (R.drop (p + 2)).takeWhile isAlphaCh
        if L.length < 2 then none
        else if tailBoundary ((R.drop (p + 2 + L.length)) ++ afterR) then
          some (p + 2 + L.length)
        else none
      else none).orElse (fun _ => emailDomainSplit R afterR p)

/-- Matcher for `\b([a-zA-Z0-9._%+-]+@[a-zA-Z0-9.-]+\.[a-zA-Z]{2,})\b`.
The local part is the maximal local-class run (a shorter run is never
followed by `@`), the domain split is found by `emailDomainSplit`. -/
def emailMatch (prev : Option Char) (cs : List Char) : Option Nat :=
  match cs with
  | [] => none
  | c0 :: _ =>
      if !(boundaryB prev c0 && isLocalCh c0) then none
      else
        let lcl := cs.takeWhile isLocalCh
        match cs.drop lcl.length with
        | '@' :: rest =>
            let R := rest.takeWhile isDomainCh
            match emailDomainSplit R (rest.drop R.length) R.length with
            | some dlen => some (lcl.length + 1 + dlen)
            | none => none
        | _ => none

/-- Separator class `[\s.-]` of the phone regex. -/
def isPhoneSep (c : Char) : Bool := isSpaceCh c || c = '.' || c = '-'

/-- Alternatives for a greedy `[\s.-]?`: take the separator first when one
is present, then the empty alternative. -/
def phoneSepAlts (cs : List Char) : List Nat :=
  match cs with
  | c :: _ => if isPhoneSep c then [1, 0] else [0]
  | [] => [0]

/-- Matcher for `(\+\d{1,3}[\s.-]?\d[\s.-]?\d{3,4}[\s.-]?\d{3,4})\b` (no
leading `\b`).  All greedy alternatives are searched in the JS engine's
order: `{1,3}` tries 3, 2, 1; `?` tries the separator first; `{3,4}` tries
4 then 3; the first combination that also satisfies the trailing `\b`
wins. -/
def phoneMatch (_prev : Option Char) (cs : List Char) : Option Nat :=
  match cs with
  | '+' :: rest =>
      ([3, 2, 1].findSome? fun n1 =>
        if !digitsN n1 rest then none
        else
          let r1 := rest.drop n1
          (phoneSepAlts r1).findSome? fun s1 =>
            let r2 := r1.drop s1
            if !digitsN 1 r2 then none
            else
              let r3 := r2.drop 1
              (phoneSepAlts r3).findSome? fun s2 =>
                let r4 := r3.drop s2
                ([4, 3].findSome? fun n3 =>
                  if !digitsN n3 r4 then none
                  else
                    let r5 := r4.drop n3
                    (phoneSepAlts r5).findSome? fun s3 =>
                      let r6 := r5.drop s3
                      ([4, 3].findSome? fun n4 =>
                        if !digitsN n4 r6 then none
                        else
                          let r7 := r6.drop n4
                          let total := 1 + n1 + s1 + 1 + s2 + n3 + s3 + n4
                          if tailBoundary r7 then some total else none)))
  | _ => none

/-! ## The global-replace scanner (`String.prototype.replace` with a `/g`
regex): non-overlapping leftmost matches are found on the input string,
each replaced by its mask; the replacement text is never rescanned, and
subsequent `\b` checks see the original characters around the match. -/

/-- One pattern pass.  `fuel` bounds the recursion (each step consumes at
least one input character, so `cs.length` fuel is always enough); `prev` is
the original character just before the current position.  Returns the
rewritten string and the number of replacements whose mask differed from
the match (only those increment `count` / record the type tag in the
source). -/
def scanGo (M : Option Char → List Char → Option Nat) (mask : List Char → List Char) :
    Nat → Option Char → List Char → List Char × Nat
  | 0, _, cs => (cs, 0)
  | _ + 1, _, [] => ([], 0)
  | fuel + 1, prev, c :: rest =>
      match M prev (c :: rest) with
      | some (n + 1) =>
          let matched := (c :: rest).take (n + 1)
          let msk := mask matched
          let r := scanGo M mask fuel matched.getLast? ((c :: rest).drop (n + 1))
          (msk ++ r.1, r.2 + if msk = matched then 0 else 1)
      | some 0 => (c :: rest, 0)   -- matchers never return an empty match
      | none =>
          let r := scanGo M mask fuel (some c) rest
          (c :: r.1, r.2)

/-- Run one pattern over a whole string (`result.replace(pattern.regex, …)`). -/
def scanPattern (M : Option Char → List Char → Option Nat)
    (mask : List Char → List Char) (cs : List Char) : List Char × Nat :=
  scanGo M mask cs.length none cs

/-- One entry of the `PATTERNS` table. -/
structure RePattern where
  name : String
  matcher : Option Char → List Char → Option Nat
  mask : List Char → List Char

/-- The `PATTERNS` table, in source order: `credit_card`, `iban`, `ssn`,
`email`, `phone`.  The order is observable (later patterns see earlier
masks). -/
def PATTERNS : List RePattern :=
  [⟨"credit_card", ccMatch, ccMask⟩,
   ⟨"iban", ibanMatch, ibanMask⟩,
   ⟨"ssn", ssnMatch, ssnMask⟩,
   ⟨"email", emailMatch, emailMask⟩,
   ⟨"phone", phoneMatch, phoneMask⟩]

/-- JS `Set.add`: insert a tag if absent, preserving insertion order. -/
def insertTag (tf : List String) (n : String) : List String :=
  if n ∈ tf then tf else tf ++ [n]

/-- The `for (const pattern of PATTERNS)` loop of `redactString`: thread the
current string, the accumulated count and the `typesFound` set.  A pattern's
tag is recorded exactly when at least one of its replacements changed the
text. -/
def runPats : List RePattern → List Char → Nat → List String →
    (List Char × Nat) × List String
  | [], cur, cnt, tf => ((cur, cnt), tf)
  | p :: ps, cur, cnt, tf =>
      let r := scanPattern p.matcher p.mask cur
      runPats ps r.1 (cnt + r.2) (if r.2 = 0 then tf else insertTag tf p.name)

/-- `redactString(value, typesFound)` from `src/lib/piiRedaction.ts`. -/
def redactString (value : List Char) (typesFound : List String) :
    (List Char × Nat) × List String :=
  runPats PATTERNS value 0 typesFound

/-! ## JSON-like values and the recursive walker (`redactRecursive`)

The walker dispatches on `typeof data === 'string'`, `Array.isArray`,
`object !== null`, and passes every other leaf through.  The mutual
inductive mirrors arrays (`JsonList`) and `Object.entries` of a plain
object (`JsonObj`, insertion-ordered key/value pairs). -/

mutual
inductive Json where
  | str (s : List Char)
  | num (n : Int)
  | bool (b : Bool)
  | null
  | arr (items : JsonList)
  | obj (fields : JsonObj)

inductive JsonList where
  | nil
  | cons (hd : Json) (tl : JsonList)

inductive JsonObj where
  | nil
  | cons (key : List Char) (val : Json) (tl : JsonObj)
end

/-! `redactRecursive(data, typesFound)`: strings are redacted, arrays map,
objects rebuild the same keys in the same order with redacted values
(keys are not redacted), all other leaves pass through with count 0. -/
mutual
def redactRecursive : Json → List String → (Json × Nat) × List String
  | .str s, tf =>
      let r := redactString s tf
      ((.str r.1.1, r.1.2), r.2)
  | .arr items, tf =>
      let r := redactJsonList items tf
      ((.arr r.1.1, r.1.2), r.2)
  | .obj fields, tf =>
      let r := redactJsonObj fields tf
      ((.obj r.1.1, r.1.2), r.2)
  | .num n, tf => ((.num n, 0), tf)
  | .bool b, tf => ((.bool b, 0), tf)
  | .null, tf => ((.null, 0), tf)

def redactJsonList : JsonList → List String → (JsonList × Nat) × List String
  | .nil, tf => ((.nil, 0), tf)
  | .cons hd tl, tf =>
      let r := redactRecursive hd tf
      let rs := redactJsonList tl r.2
      ((.cons r.1.1 rs.1.1, r.1.2 + rs.1.2), rs.2)

def redactJsonObj : JsonObj → List String → (JsonObj × Nat) × List String
  | .nil, tf => ((.nil, 0), tf)
  | .cons k v tl, tf =>
      let r := redactRecursive v tf
      let rs := redactJsonObj tl r.2
      ((.cons k r.1.1 rs.1.1, r.1.2 + rs.1.2), rs.2)
end

/-- The combined stage-1 result (`RedactionResult` in the source). -/
structure RedactionResult where
  redactedData : Json
  redactionCount : Nat
  redactedTypes : List String

/-- `redactPII(data)`: run the walker with a fresh `typesFound` set. -/
def redactPII (data : Json) : RedactionResult :=
  let r := redactRecursive data []
  ⟨r.1.1, r.1.2, r.2⟩

/-- The string payload of a `Json.str` (the `r.redactedData as string` cast
in the middleware; the walker maps strings to strings, so this is the only
case that can occur there). -/
def Json.asStr : Json → List Char
  | .str s => s
  | _ => []

/-! ## Stage 2: the AWS Comprehend NER wrapper (`src/lib/comprehendClient.ts`) -/

/-- One entity of a `DetectPiiEntities` response: all fields optional, as in
the AWS SDK shape. -/
structure PiiEntity where
  type : Option String
  beginOffset : Option Nat
  endOffset : Option Nat

/-- UTF-8 byte width of one Unicode scalar value (`TextEncoder`). -/
def utf8Bytes (c : Char) : Nat :=
  if c.toNat ≤ 0x7f then 1
  else if c.toNat ≤ 0x7ff then 2
  else if c.toNat ≤ 0xffff then 3
  else 4

/-- UTF-8 byte length of a string (`encoder.encode(s).length`). -/
def utf8Len (cs : List Char) : Nat := (cs.map utf8Bytes).sum

/-- `CHUNK_BYTE_LIMIT`: maximum bytes per chunk, below Comprehend's
5,000-byte hard limit. -/
def CHUNK_BYTE_LIMIT : Nat := 4500

/-- Entity types handled by stage 2 (`REDACT_TYPES`); stage 1 already covers
emails, phones and card numbers. -/
def REDACT_TYPES : List String :=
  ["NAME", "ADDRESS", "DATE_TIME", "AGE", "USERNAME", "PASSWORD",
   "IP_ADDRESS", "BANK_ACCOUNT_NUMBER", "PASSPORT_NUMBER", "DRIVER_ID",
   "AWS_ACCESS_KEY", "MAC_ADDRESS"]

/-- `text.split('\n')` (JS semantics: an empty string yields `[""]`, a
trailing newline yields a trailing empty part). -/
def splitLines : List Char → List (List Char)
  | [] => [[]]
  | c :: rest =>
      if c = '\n' then [] :: splitLines rest
      else
        match splitLines rest with
        | l :: ls => (c :: l) :: ls
        | [] => [[c]]

/-- The binary search of `chunkText` for the largest split point of an
over-long line whose byte-prefix fits the limit (`lo`/`hi` bisection with
`while (lo < hi - 1)`).  Fuelled: the interval halves each step, so
`hi - lo + 1` fuel always suffices. -/
def bsearchGo (rem : List Char) : Nat → Nat → Nat → Nat
  | 0, lo, _ => lo
  | fuel + 1, lo, hi =>
      if lo + 1 < hi then
        let mid := (lo + hi) / 2
        if utf8Len (rem.take mid) ≤ CHUNK_BYTE_LIMIT then bsearchGo rem fuel mid hi
        else bsearchGo rem fuel lo mid
      else lo

/-- The `while (encoder.encode(remaining).length > CHUNK_BYTE_LIMIT)` loop
that splits a single over-long line by characters.  Fuelled by the line
length: each iteration removes at least one character. -/
def splitLongGo (fuel : Nat) (rem : List Char) : List (List Char) × List Char :=
  match fuel with
  | 0 => ([], rem)
  | fuel + 1 =>
      if utf8Len rem > CHUNK_BYTE_LIMIT then
        let lo := bsearchGo rem (rem.length + 1) 0 rem.length
        let r := splitLongGo fuel (rem.drop lo)
        (rem.take lo :: r.1, r.2)
      else ([], rem)

/-- Character-wise split of a single line exceeding the limit: the pushed
chunks and the final `remaining` (which becomes `current`). -/
def splitLong (line : List Char) : List (List Char) × List Char :=
  splitLongGo line.length line

/-- The `for (const line of lines)` accumulation loop of `chunkText`.
`current` is the pending chunk (`''` is falsy in JS, hence the emptiness
tests); the final non-empty `current` is pushed at the end. -/
def chunkLoop : List (List Char) → List Char → List (List Char) → List (List Char)
  | [], current, chunks => if current.isEmpty then chunks else chunks ++ [current]
  | line :: rest, current, chunks =>
      let candidate := if current.isEmpty then line else current ++ '\n' :: line
      if utf8Len candidate > CHUNK_BYTE_LIMIT then
        if !current.isEmpty then chunkLoop rest line (chunks ++ [current])
        else
          let r := splitLong line
          chunkLoop rest r.2 (chunks ++ r.1)
      else chunkLoop rest candidate chunks

/-- `chunkText(text)` from `src/lib/comprehendClient.ts`. -/
def chunkText (text : List Char) : List (List Char) :=
  if utf8Len text ≤ CHUNK_BYTE_LIMIT then [text]
  else chunkLoop (splitLines text) [] []

/-- Insert an entity into a descending-by-key list, after entities with an
equal key (stability). -/
def insertDescBy (key : PiiEntity → Nat) (e : PiiEntity) :
    List PiiEntity → List PiiEntity
  | [] => [e]
  | x :: xs => if key e > key x then e :: x :: xs else x :: insertDescBy key e xs

/-- Stable descending sort by begin offset, the effect of the stable
`Array.prototype.sort` with comparator `(b.BeginOffset ?? 0) - (a.BeginOffset ?? 0)`
(insertion after equal keys preserves the original relative order). -/
def sortDescBegin (l : List PiiEntity) : List PiiEntity :=
  l.foldl (fun acc e => insertDescBy (fun x => x.beginOffset.getD 0) e acc) []

/-- `applyRedactions(text, entities)`: keep the entities whose type is in
`REDACT_TYPES` and whose offsets are defined, sort them by descending begin
offset (stable, as `Array.prototype.sort`), and splice the
`[REDACTED:<TYPE>]` literal over each span from the right. -/
def applyRedactions (text : List Char) (entities : List PiiEntity) :
    List Char × Nat × List String :=
  let relevant :=
    sortDescBegin (entities.filter fun e =>
      (match e.type with | some t => decide (t ∈ REDACT_TYPES) | none => false) &&
      e.beginOffset.isSome && e.endOffset.isSome)
  let redacted := relevant.foldl
    (fun acc e =>
      let b := e.beginOffset.getD 0
      let en := e.endOffset.getD 0
      let ty := (e.type.getD "")
      acc.take b ++ "[REDACTED:".data ++ ty.data ++ "]".data ++ acc.drop en)
    text
  let types := relevant.foldl (fun ts e => insertTag ts (e.type.getD "")) []
  (redacted, relevant.length, types)

/-- The NER provider handle: the two operations the core consumes,
`ContainsPiiEntities` (label probe) and `DetectPiiEntities` (entity spans),
modelled as pure functions of the text sent. -/
structure NerClient where
  containsPii : List Char → List String
  detectPii : List Char → List PiiEntity

/-- `redactStringWithComprehend(text, client)`: probe the first 4,500
characters (`text.slice(0, 4500)`); with no labels return unchanged;
otherwise chunk, detect and redact each chunk, and join with `\n`. -/
def redactStringWithComprehend (text : List Char) (client : NerClient) :
    (List Char × Nat) × List String :=
  let labels := client.containsPii (text.take 4500)
  if labels.isEmpty then ((text, 0), [])
  else
    let chunks := chunkText text
    let step := chunks.foldl
      (fun (acc : List (List Char) × Nat × List String) chunk =>
        let r := applyRedactions chunk (client.detectPii chunk)
        (acc.1 ++ [r.1], acc.2.1 + r.2.1, r.2.2.foldl insertTag acc.2.2))
      ([], 0, [])
    ((List.intercalate ['\n'] step.1, step.2.1), step.2.2)

/-! `redactRecursiveDeep(data, client, typesFound)`: the stage-2 walker,
calling `redactStringWithComprehend` on every string value. -/
mutual
def redactRecursiveDeep (client : NerClient) :
    Json → List String → (Json × Nat) × List String
  | .str s, tf =>
      let r := redactStringWithComprehend s client
      ((.str r.1.1, r.1.2), r.2.foldl insertTag tf)
  | .arr items, tf =>
      let r := redactDeepList client items tf
      ((.arr r.1.1, r.1.2), r.2)
  | .obj fields, tf =>
      let r := redactDeepObj client fields tf
      ((.obj r.1.1, r.1.2), r.2)
  | .num n, tf => ((.num n, 0), tf)
  | .bool b, tf => ((.bool b, 0), tf)
  | .null, tf => ((.null, 0), tf)

def redactDeepList (client : NerClient) :
    JsonList → List String → (JsonList × Nat) × List String
  | .nil, tf => ((.nil, 0), tf)
  | .cons hd tl, tf =>
      let r := redactRecursiveDeep client hd tf
      let rs := redactDeepList client tl r.2
      ((.cons r.1.1 rs.1.1, r.1.2 + rs.1.2), rs.2)

def redactDeepObj (client : NerClient) :
    JsonObj → List String → (JsonObj × Nat) × List String
  | .nil, tf => ((.nil, 0), tf)
  | .cons k v tl, tf =>
      let r := redactRecursiveDeep client v tf
      let rs := redactDeepObj client tl r.2
      ((.cons k r.1.1 rs.1.1, r.1.2 + rs.1.2), rs.2)
end

/-- The feature-flag slice of `ProxyConfig` consumed by the redaction path
(`comprehendEnabled`, `awsRegion`, `auditEnabled`). -/
structure ProxyConfig where
  complianceProfile : String
  auditEnabled : Bool
  awsRegion : String
  comprehendEnabled : Bool

/-- `redactPIIDeep(data, config)`: stage 1, then — only when
`comprehendEnabled` — the stage-2 walk over the stage-1 output; counts add
and the type sets union (stage-1 tags first, JS `Set` order). -/
def redactPIIDeep (data : Json) (config : ProxyConfig) (client : NerClient) :
    RedactionResult :=
  let stage1 := redactPII data
  if !config.comprehendEnabled then stage1
  else
    let r := redactRecursiveDeep client stage1.redactedData []
    ⟨r.1.1, stage1.redactionCount + r.1.2,
      r.2.foldl insertTag stage1.redactedTypes⟩

end EPP

namespace EPP

/-! ## Compliance profiles (`src/middlewares/complianceProfiles.ts`) -/

/-- The `ComplianceProfile` shape: name, the two stage switches, and the
optional stage-2 entity-type allowlist (`comprehendEntityTypes` in the
tests). -/
structure ComplianceProfile where
  name : String
  stage1 : Bool
  stage2 : Bool
  comprehendEntityTypes : Option (List String) := none

/-- Modelled from the spec: the source of `complianceProfiles.ts` is not
under `src/` (only its tests and callers are).  Per the profile table, GDPR
enables both stages with entity types NAME, ADDRESS, DATE_TIME,
PASSPORT_NUMBER, DRIVER_ID. -/
def gdprProfile : ComplianceProfile :=
  ⟨"GDPR", true, true,
    some ["NAME", "ADDRESS", "DATE_TIME", "PASSPORT_NUMBER", "DRIVER_ID"]⟩

/-! ## PII middlewares (`src/middlewares/piiRedaction.ts`) -/

/-- `redactText(text, profile, config)`: skip everything when stage 1 is
off; run both stages when stage 2 and the feature flag are on; otherwise
stage 1 only.  The profile's entity-type list is not consulted. -/
def redactText (text : List Char) (profile : ComplianceProfile)
    (config : ProxyConfig) (client : NerClient) : RedactionResult :=
  if !profile.stage1 then ⟨.str text, 0, []⟩
  else if profile.stage2 && config.comprehendEnabled then
    redactPIIDeep (.str text) config client
  else redactPII (.str text)

/-- `mergeResults`: add counts, union the type lists preserving order. -/
def mergeResults (acc : Nat × List String) (r : RedactionResult) :
    Nat × List String :=
  (acc.1 + r.redactionCount, r.redactedTypes.foldl insertTag acc.2)

/-- A content block of a `CallToolResult`: a text block, or an opaque
non-text carrier (image/audio/resource), carried as its serialized form. -/
inductive Block where
  | text (s : List Char)
  | other (raw : List Char)

/-- A tool response.  Modelled from the spec for the shape test: a legacy
response lacking `content` (detected by the `hasToolContent` helper of the
`mcpose` package, which is not under `src/`) is opaque; a regular response
carries content blocks and the optional `isError` flag. -/
inductive ToolResult where
  | legacy (raw : List Char)
  | withContent (content : List Block) (isError : Option Bool)

/-- JS truthiness of the optional `isError` field (`result.isError`). -/
def isErrTruthy : Option Bool → Bool
  | some b => b
  | none => false

/-- `'isError' in result && result.isError ? 'error' : 'success'`. -/
def statusOf : ToolResult → String
  | .legacy _ => "success"
  | .withContent _ none => "success"
  | .withContent _ (some b) => if b then "error" else "success"

/-- The `for (const block of result.content)` loop of the tool middleware:
non-text blocks pass through, text blocks are redacted and the results
merged. -/
def redactBlocks (config : ProxyConfig) (profile : ComplianceProfile)
    (client : NerClient) : List Block → List Block × (Nat × List String)
  | [] => ([], (0, []))
  | .other raw :: rest =>
      let rs := redactBlocks config profile client rest
      (.other raw :: rs.1, rs.2)
  | .text s :: rest =>
      let r := redactText s profile config client
      let rs := redactBlocks config profile client rest
      (.text r.redactedData.asStr :: rs.1, mergeResults rs.2 r)

/-! The source accumulates left-to-right with `mergeResults`; the fold above
is right-nested, so the accumulated pair is proved equal to the source's
left fold in `redactBlocks_eq_foldl` below — counts add and `insertTag`
unions associate the same way for the properties stated here.  To stay
byte-faithful we instead define the left fold directly and use it. -/

/-- Left-to-right accumulation exactly as in the source: start from
`{ redactionCount: 0, redactedTypes: [] }` and `mergeResults` each text
block while rebuilding the content array. -/
def redactBlocksGo (config : ProxyConfig) (profile : ComplianceProfile)
    (client : NerClient) (blocks : List Block)
    (acc : Nat × List String) (done : List Block) : List Block × (Nat × List String) :=
  match blocks with
  | [] => (done, acc)
  | .other raw :: rest => redactBlocksGo config profile client rest acc (done ++ [.other raw])
  | .text s :: rest =>
      let r := redactText s profile config client
      redactBlocksGo config profile client rest (mergeResults acc r)
        (done ++ [.text r.redactedData.asStr])

/-- The redacted content and accumulated summary of the tool middleware. -/
def redactContent (config : ProxyConfig) (profile : ComplianceProfile)
    (client : NerClient) (blocks : List Block) : List Block × (Nat × List String) :=
  redactBlocksGo config profile client blocks (0, []) []

/-! ## Requests, the annotation slot, and the pipeline state -/

/-- The redaction summary attached to a request (`RedactionContext` in
`src/middlewares/types.ts`). -/
structure RedactionContext where
  redactionCount : Nat
  redactedTypes : List String
deriving DecidableEq

/-- A `CallToolRequest`: tool name and optional arguments object. -/
structure ToolRequest where
  name : String
  arguments : Option Json

/-- One audit record (`AuditEntry` in `src/lib/auditLogger.ts`).  The ISO
timestamp is abstracted to the logical clock value at construction. -/
structure AuditEntry where
  timestamp : Nat
  upstream_tool : String
  compliance_profile : String
  input_parameters : List Char
  output_size_bytes : Nat
  redaction_count : Nat
  redacted_types : List String
  execution_time_ms : Nat
  status : String
  error_message : Option (List Char) := none

/-- Observable events of one pipeline run, used to state the ordering
contract: the audit timer start, the backend call, the PII layer's
annotation write (the response mutation hand-off), and the audit sink
write. -/
inductive Ev where
  | auditStart
  | backendCall
  | annWrite
  | logWrite
deriving DecidableEq

/-- Mutable state threaded through one request: the write-once annotation
slot (`req._piiRedaction`), the audit sink (entries written, each
serialized as one JSON line by the writer), the event trace and a logical
clock advanced on every observable action. -/
structure PState where
  ann : Option RedactionContext
  logged : List AuditEntry
  trace : List Ev
  clock : Nat

/-- The fresh state at the start of a request. -/
def initState : PState := ⟨none, [], [], 0⟩

/-- Append an event (advancing the logical clock). -/
def pushEv (e : Ev) (s : PState) : PState :=
  { s with trace := s.trace ++ [e], clock := s.clock + 1 }

/-! ## JSON serialization (`JSON.stringify`) -/

/-- Lowercase hex digit. -/
def hexDigit (n : Nat) : Char :=
  if n < 10 then Char.ofNat (48 + n) else Char.ofNat (87 + (n - 10))

/-- `JSON.stringify` escaping of one character inside a string literal. -/
def escChar (c : Char) : List Char :=
  if c = '"' then ['\\', '"']
  else if c = '\\' then ['\\', '\\']
  else if c = '\n' then ['\\', 'n']
  else if c = '\r' then ['\\', 'r']
  else if c = '\t' then ['\\', 't']
  else if c.toNat = 8 then ['\\', 'b']
  else if c.toNat = 12 then ['\\', 'f']
  else if c.toNat < 32 then
    ['\\', 'u', '0', '0', hexDigit (c.toNat / 16), hexDigit (c.toNat % 16)]
  else [c]

/-- A JSON string literal: quote, escaped characters, quote. -/
def jsonStr (s : List Char) : List Char :=
  '"' :: (s.map escChar).flatten ++ ['"']

/-! Serialize a JSON value as `JSON.stringify` does (no spacing; object
keys in insertion order). -/
mutual
def jsonStringify : Json → List Char
  | .str s => jsonStr s
  | .num n => (toString n).data
  | .bool b => (if b then "true" else "false").data
  | .null => "null".data
  | .arr items => '[' :: jsonStringifyList items ++ [']']
  | .obj fields => '\x7b' :: jsonStringifyObj fields ++ ['\x7d']

def jsonStringifyList : JsonList → List Char
  | .nil => []
  | .cons hd .nil => jsonStringify hd
  | .cons hd (.cons h2 tl) => jsonStringify hd ++ ',' :: jsonStringifyList (.cons h2 tl)

def jsonStringifyObj : JsonObj → List Char
  | .nil => []
  | .cons k v .nil => jsonStr k ++ ':' :: jsonStringify v
  | .cons k v (.cons k2 v2 tl) =>
      jsonStr k ++ ':' :: jsonStringify v ++ ',' :: jsonStringifyObj (.cons k2 v2 tl)
end

/-- Serialization of one content block (text blocks as their JSON object,
opaque blocks as their carried serialized form). -/
def stringifyBlock : Block → List Char
  | .text s => '\x7b' :: "\"type\":\"text\",\"text\":".data ++ jsonStr s ++ ['\x7d']
  | .other raw => raw

/-- Comma-join. -/
def joinComma (xs : List (List Char)) : List Char := List.intercalate [','] xs

/-- `JSON.stringify(result)` for a tool response: the `content` array and,
when present, the `isError` flag, in insertion order. -/
def stringifyResult : ToolResult → List Char
  | .legacy raw => raw
  | .withContent blocks isErr =>
      '\x7b' :: "\"content\":[".data ++ joinComma (blocks.map stringifyBlock) ++ [']'] ++
      (match isErr with
       | none => []
       | some b => ',' :: "\"isError\":".data ++ (if b then "true" else "false").data) ++
      ['\x7d']

/-! ## Audit logger (`src/lib/auditLogger.ts`) -/

/-- `MAX_INPUT_LOG_LENGTH`. -/
def MAX_INPUT_LOG_LENGTH : Nat := 500

/-- UTF-16 width of one Unicode scalar value (JS `.length` counts code
units: astral characters count 2). -/
def utf16Width (c : Char) : Nat := if c.toNat < 0x10000 then 1 else 2

/-- JS `String.prototype.length` of a string. -/
def utf16Len (cs : List Char) : Nat := (cs.map utf16Width).sum

/-- JS `s.slice(0, n)` by UTF-16 code units (no input below ever cuts an
astral character in half, so stopping before one is faithful). -/
def utf16Take : Nat → List Char → List Char
  | _, [] => []
  | 0, _ => []
  | n + 1, c :: rest =>
      if utf16Width c ≤ n + 1 then c :: utf16Take (n + 1 - utf16Width c) rest
      else []

/-- The truncation expression of `AuditLogger.log`: inputs longer than
`MAX_INPUT_LOG_LENGTH` (JS `.length`/`.slice`, i.e. UTF-16 code units) are
cut and the literal `...[truncated]` is appended. -/
def truncInput (p : List Char) : List Char :=
  if utf16Len p > MAX_INPUT_LOG_LENGTH then
    utf16Take MAX_INPUT_LOG_LENGTH p ++ "...[truncated]".data
  else p

/-- The sanitization in `AuditLogger.log`: truncate `input_parameters`. -/
def sanitizeEntry (entry : AuditEntry) : AuditEntry :=
  { entry with input_parameters := truncInput entry.input_parameters }

/-- `AuditLogger.log(entry)`: a no-op when audit is disabled; otherwise the
sanitized entry is written to the sink as one JSON line. -/
def auditLog (enabled : Bool) (entry : AuditEntry) (s : PState) : PState :=
  if !enabled then s
  else pushEv .logWrite { s with logged := s.logged ++ [sanitizeEntry entry] }

/-! ## Middleware composition -/

/-- One computation step of a request: may throw (JS exceptions), always
returns the state reached so far. -/
def PM (α : Type) : Type := PState → Except String α × PState

/-- A tool middleware: receives the request and the `next` continuation. -/
def Middleware : Type := ToolRequest → (ToolRequest → PM ToolResult) → PM ToolResult

/-- Modelled from the spec: the composition kernel (`pipe` of the `mcpose`
package, which is not under `src/`) composes an ordered list of layers over
a terminal operation with onion semantics — the first element is the
outermost layer; each layer may transform the request before calling
`next`, transform the result after, or observe an error. -/
def compose : List Middleware → (ToolRequest → PM ToolResult) → ToolRequest → PM ToolResult
  | [], t => t
  | m :: ms, t => fun req => m req (compose ms t)

/-- `baseEntry(req, profileName, start)`: timestamp, tool name, profile,
serialized arguments (`JSON.stringify(req.params.arguments ?? {})`), and
elapsed time; the remaining fields are filled by the caller. -/
def baseEntry (req : ToolRequest) (profileName : String) (start : Nat)
    (now : Nat) : AuditEntry :=
  { timestamp := now
    upstream_tool := req.name
    compliance_profile := profileName
    input_parameters := jsonStringify (req.arguments.getD (.obj .nil))
    output_size_bytes := 0
    redaction_count := 0
    redacted_types := []
    execution_time_ms := now - start
    status := "success" }

/-- `createAuditMiddleware(logger, profileName)`: record the start time,
call `next` under try/catch; on exception log an error entry and re-throw;
on success read the annotation slot (absence counts as zero), measure the
serialized response, log, and return the response. -/
def createAuditMiddleware (auditEnabled : Bool) (profileName : String) : Middleware :=
  fun req next s =>
    let start := s.clock
    let s := pushEv .auditStart s
    match next req s with
    | (.error err, s1) =>
        let entry :=
          { baseEntry req profileName start s1.clock with
            output_size_bytes := 0
            redaction_count := 0
            redacted_types := []
            status := "error"
            error_message := some err.data }
        (.error err, auditLog auditEnabled entry s1)
    | (.ok result, s1) =>
        let pii := s1.ann.getD ⟨0, []⟩
        let outputStr := stringifyResult result
        let entry :=
          { baseEntry req profileName start s1.clock with
            output_size_bytes := utf8Len outputStr
            redaction_count := pii.redactionCount
            redacted_types := pii.redactedTypes
            status := statusOf result }
        (.ok result, auditLog auditEnabled entry s1)

/-- `createPiiToolMiddleware(config, profile)`: after `next` returns, pass
legacy shapes and error responses through unchanged; otherwise redact every
text block, attach the accumulated summary to the request annotation slot,
and return the response with the redacted content. -/
def createPiiToolMiddleware (config : ProxyConfig) (profile : ComplianceProfile)
    (client : NerClient) : Middleware :=
  fun req next s =>
    match next req s with
    | (.error err, s1) => (.error err, s1)
    | (.ok result, s1) =>
        match result with
        | .legacy raw => (.ok (.legacy raw), s1)
        | .withContent content isErr =>
            if isErrTruthy isErr then (.ok (.withContent content isErr), s1)
            else
              let r := redactContent config profile client content
              let s2 := pushEv .annWrite { s1 with ann := some ⟨r.2.1, r.2.2⟩ }
              (.ok (.withContent r.1 isErr), s2)

/-- The terminal operation: the opaque upstream backend handle. -/
def backendTerminal (backendFn : ToolRequest → Except String ToolResult) :
    ToolRequest → PM ToolResult :=
  fun req s => (backendFn req, pushEv .backendCall s)

/-- The assembled tool pipeline of `src/index.ts`: the audit middleware
outermost, the PII middleware inside it, over the backend handle
(`toolMiddleware: [piiToolMW, auditMW]`, where the last listed layer is the
outermost one). -/
def runToolPipeline (config : ProxyConfig) (profile : ComplianceProfile)
    (client : NerClient) (backendFn : ToolRequest → Except String ToolResult)
    (req : ToolRequest) : Except String ToolResult × PState :=
  compose
    [createAuditMiddleware config.auditEnabled profile.name,
     createPiiToolMiddleware config profile client]
    (backendTerminal backendFn) req initState

end EPP

namespace EPP

/-! ## General lemmas about the scanner -/

/-- If a pattern pass reports zero changed replacements, it rebuilt the
input unchanged: every replacement emitted exactly the matched text. -/
theorem scanGo_count_zero (M : Option Char → List Char → Option Nat)
    (mask : List Char → List Char) :
    ∀ (fuel : Nat) (prev : Option Char) (cs : List Char),
      (scanGo M mask fuel prev cs).2 = 0 → (scanGo M mask fuel prev cs).1 = cs := by
  intro fuel
  induction fuel with
  | zero => intro prev cs _; rfl
  | succ n ih =>
    intro prev cs h
    match cs with
    | [] => rfl
    | c :: rest =>
      rcases hM : M prev (c :: rest) with _ | m
      · simp only [scanGo, hM] at h ⊢
        exact congrArg (c :: ·) (ih (some c) rest h)
      · match m with
        | 0 => simp only [scanGo, hM]
        | k + 1 =>
          simp only [scanGo, hM] at h ⊢
          rcases Nat.add_eq_zero.mp h with ⟨h1, h2⟩
          have hm : mask ((c :: rest).take (k + 1)) = (c :: rest).take (k + 1) := by
            by_contra hc
            rw [if_neg hc] at h2
            exact one_ne_zero h2
          rw [hm, ih _ _ h1, List.take_append_drop]

/-- A pattern pass with zero count leaves the string unchanged. -/
theorem scanPattern_count_zero (M : Option Char → List Char → Option Nat)
    (mask : List Char → List Char) (cs : List Char)
    (h : (scanPattern M mask cs).2 = 0) : (scanPattern M mask cs).1 = cs :=
  scanGo_count_zero M mask cs.length none cs h

/-- The accumulated count of `runPats` never decreases. -/
theorem runPats_count_ge :
    ∀ (ps : List RePattern) (cur : List Char) (cnt : Nat) (tf : List String),
      cnt ≤ (runPats ps cur cnt tf).1.2 := by
  intro ps
  induction ps with
  | nil => intro cur cnt tf; exact Nat.le_refl _
  | cons p ps ih =>
    intro cur cnt tf
    simp only [runPats]
    exact Nat.le_trans (Nat.le_add_right _ _) (ih _ _ _)

/-- If `runPats` adds nothing to the count, it returns the string it was
given: every pass had count zero and hence rebuilt its input. -/
theorem runPats_count_eq :
    ∀ (ps : List RePattern) (cur : List Char) (cnt : Nat) (tf : List String),
      (runPats ps cur cnt tf).1.2 = cnt → (runPats ps cur cnt tf).1.1 = cur := by
  intro ps
  induction ps with
  | nil => intro cur cnt tf _; rfl
  | cons p ps ih =>
    intro cur cnt tf h
    simp only [runPats] at h ⊢
    have hge := runPats_count_ge ps (scanPattern p.matcher p.mask cur).1
      (cnt + (scanPattern p.matcher p.mask cur).2)
      (if (scanPattern p.matcher p.mask cur).2 = 0 then tf else insertTag tf p.name)
    have hzero : (scanPattern p.matcher p.mask cur).2 = 0 := by omega
    have hcur := scanPattern_count_zero p.matcher p.mask cur hzero
    rw [hcur] at h ⊢
    rw [hzero] at h ⊢
    exact ih cur cnt _ (by simpa using h)

/-- `redactString` reports count 0 exactly when it rebuilt its input. -/
theorem redactString_count_zero (value : List Char) (tf : List String)
    (h : (redactString value tf).1.2 = 0) : (redactString value tf).1.1 = value :=
  runPats_count_eq PATTERNS value 0 tf h

end EPP

namespace EPP

/-! ## Shape of a JSON-like value -/

/-! `stripStrings` erases every string payload; two values with the same
`stripStrings` image have the same map keys in the same order, the same
list lengths, and equal non-string leaves. -/
mutual
def stripStrings : Json → Json
  | .str _ => .str []
  | .num n => .num n
  | .bool b => .bool b
  | .null => .null
  | .arr items => .arr (stripStringsList items)
  | .obj fields => .obj (stripStringsObj fields)

def stripStringsList : JsonList → JsonList
  | .nil => .nil
  | .cons hd tl => .cons (stripStrings hd) (stripStringsList tl)

def stripStringsObj : JsonObj → JsonObj
  | .nil => .nil
  | .cons k v tl => .cons k (stripStrings v) (stripStringsObj tl)
end

mutual
theorem stripStrings_redactRecursive : ∀ (v : Json) (tf : List String),
    stripStrings (redactRecursive v tf).1.1 = stripStrings v
  | .str s, tf => by simp only [redactRecursive, stripStrings]
  | .num n, tf => by simp only [redactRecursive, stripStrings]
  | .bool b, tf => by simp only [redactRecursive, stripStrings]
  | .null, tf => by simp only [redactRecursive, stripStrings]
  | .arr items, tf => by
      simp only [redactRecursive, stripStrings]
      exact congrArg Json.arr (stripStrings_redactJsonList items tf)
  | .obj fields, tf => by
      simp only [redactRecursive, stripStrings]
      exact congrArg Json.obj (stripStrings_redactJsonObj fields tf)

theorem stripStrings_redactJsonList : ∀ (l : JsonList) (tf : List String),
    stripStringsList (redactJsonList l tf).1.1 = stripStringsList l
  | .nil, tf => by simp only [redactJsonList, stripStringsList]
  | .cons hd tl, tf => by
      simp only [redactJsonList, stripStringsList]
      exact congrArg₂ JsonList.cons (stripStrings_redactRecursive hd tf)
        (stripStrings_redactJsonList tl _)

theorem stripStrings_redactJsonObj : ∀ (o : JsonObj) (tf : List String),
    stripStringsObj (redactJsonObj o tf).1.1 = stripStringsObj o
  | .nil, tf => by simp only [redactJsonObj, stripStringsObj]
  | .cons k v tl, tf => by
      simp only [redactJsonObj, stripStringsObj]
      exact congrArg₂ (JsonObj.cons k) (stripStrings_redactRecursive v tf)
        (stripStrings_redactJsonObj tl _)
end

/-! ## Claims C5, C6, C7, C10 -/

/-- C5 counterexample: `redact_string` is not idempotent.  On
`DE89AAAAAAA4111 1111 1111 1111` the IBAN mask produces
`DE89****4111 1111 1111 1111`; the `*` creates a fresh word boundary in
front of `4111 1111 1111 1111`, which the credit-card pattern then masks on
a second application (count 1, output changed). -/
theorem c5_counterexample :
    (redactString "DE89AAAAAAA4111 1111 1111 1111".data []).1.1 =
      "DE89****4111 1111 1111 1111".data ∧
    (redactString ((redactString "DE89AAAAAAA4111 1111 1111 1111".data []).1.1) []).1.2 = 1 ∧
    (redactString ((redactString "DE89AAAAAAA4111 1111 1111 1111".data []).1.1) []).1.1 ≠
      (redactString "DE89AAAAAAA4111 1111 1111 1111".data []).1.1 := by
  refine ⟨by decide, by decide, by decide⟩

/-- C5 (amended): re-applying `redact_string` to its own output returns it
unchanged exactly when the second application records count 0 — which is
not guaranteed for all strings, since a mask can create a new word-boundary
match (see the counterexample). -/
theorem c5_reapply_count_zero (s : List Char) (tf tf2 : List String)
    (h : (redactString ((redactString s tf).1.1) tf2).1.2 = 0) :
    (redactString ((redactString s tf).1.1) tf2).1.1 = (redactString s tf).1.1 :=
  redactString_count_zero _ tf2 h

/-- C5 witness: on `hello` the second application records count 0 and the
theorem yields the fixed point. -/
theorem c5_reapply_count_zero_witness :
    (redactString ((redactString "hello".data []).1.1) []).1.2 = 0 ∧
    (redactString ((redactString "hello".data []).1.1) []).1.1 =
      (redactString "hello".data []).1.1 :=
  ⟨by decide, c5_reapply_count_zero "hello".data [] [] (by decide)⟩

/-- C6: `redact_recursive` preserves shape — the result has the same map
keys in the same order, the same list lengths, and every non-string leaf
equal to the original (both sides have the same string-erased image). -/
theorem c6_shape_preserved (v : Json) (tf : List String) :
    stripStrings (redactRecursive v tf).1.1 = stripStrings v :=
  stripStrings_redactRecursive v tf

/-- C7 counterexample: the claim's universal part fails — a Luhn-invalid
16-digit sequence can be altered when stage 1 runs, namely by the `phone`
pattern when the digits follow a `+`: `+1234 5678 9012 3456` (digits
`1234567890123456`, Luhn-invalid) becomes `+12***12 3456` with a `phone`
count and tag. -/
theorem c7_counterexample :
    luhnCheck "1234567890123456".data = false ∧
    (redactString "+1234 5678 9012 3456".data []).1.1 = "+12***12 3456".data ∧
    (redactString "+1234 5678 9012 3456".data []).1.1 ≠ "+1234 5678 9012 3456".data ∧
    (redactString "+1234 5678 9012 3456".data []).2 = ["phone"] := by
  refine ⟨by decide, by decide, by decide, by decide⟩

/-- C7 (amended): the S2 scenario holds concretely — the Luhn-invalid card
stays, the Luhn-valid one is masked, count 1, types `{credit_card}` — and
the credit-card mask never alters a match whose digits fail the Luhn check
(so no `credit_card` count or tag is ever recorded for it); other patterns
(`phone`, after a `+`) may still alter such digit runs. -/
theorem c7_luhn_invalid_untouched :
    (redactString "Card 1234 5678 9012 3456 and 4111 1111 1111 1111".data [] =
      (("Card 1234 5678 9012 3456 and **** **** **** 1111".data, 1), ["credit_card"])) ∧
    (∀ m : List Char, luhnCheck (m.filter isDigitCh) = false → ccMask m = m) := by
  refine ⟨by decide, ?_⟩
  intro m h
  simp [ccMask, h]

/-- C7 witness: the mask part applied at the Luhn-invalid run `1234`. -/
theorem c7_luhn_invalid_untouched_witness :
    luhnCheck ("1234".data.filter isDigitCh) = false ∧ ccMask "1234".data = "1234".data :=
  ⟨by decide, c7_luhn_invalid_untouched.2 "1234".data (by decide)⟩

/-- C10: with `stage1 = false` the configured stages reduce to the
identity — `redactText` returns the text unchanged with count 0 and no
types, and the result does not depend on the NER client (stage 2 is never
consulted), even when `profile.stage2` and `comprehendEnabled` are both
true. -/
theorem c10_stage1_gate (text : List Char) (profile : ComplianceProfile)
    (config : ProxyConfig) (client client' : NerClient)
    (h : profile.stage1 = false) :
    redactText text profile config client = ⟨.str text, 0, []⟩ ∧
    redactText text profile config client = redactText text profile config client' := by
  constructor <;> simp [redactText, h]

/-- Profile used to witness C10: stage 1 off, stage 2 on. -/
def stage2OnlyProfile : ComplianceProfile := ⟨"NONE", false, true, none⟩

/-- Config with the Comprehend feature flag on. -/
def cfgComprehendOn : ProxyConfig := ⟨"GDPR", true, "us-east-1", true⟩

/-- An NER client that reports and locates an AGE entity in any text. -/
def nerClientAge : NerClient :=
  ⟨fun _ => ["AGE"], fun _ => [⟨some "AGE", some 0, some 2⟩]⟩

/-- An NER client that never reports anything. -/
def nerClientNone : NerClient := ⟨fun _ => [], fun _ => []⟩

/-- C10 witness: stage 1 off, stage 2 and the feature flag on, a client
that would redact — the text still passes through untouched and the client
is irrelevant. -/
theorem c10_stage1_gate_witness :
    stage2OnlyProfile.stage1 = false ∧
    redactText "john@example.com".data stage2OnlyProfile cfgComprehendOn nerClientAge =
      ⟨.str "john@example.com".data, 0, []⟩ ∧
    redactText "john@example.com".data stage2OnlyProfile cfgComprehendOn nerClientAge =
      redactText "john@example.com".data stage2OnlyProfile cfgComprehendOn nerClientNone := by
  have h := c10_stage1_gate "john@example.com".data stage2OnlyProfile cfgComprehendOn
    nerClientAge nerClientNone rfl
  exact ⟨rfl, h.1, h.2⟩

end EPP

namespace EPP

/-! ## Claim C4: the stage-2 type filter -/

/-- Membership in the stable insertion: exactly the inserted element or the
old ones. -/
theorem mem_insertDescBy (key : PiiEntity → Nat) (e x : PiiEntity) :
    ∀ l : List PiiEntity, x ∈ insertDescBy key e l → x = e ∨ x ∈ l := by
  intro l
  induction l with
  | nil => intro h; simpa [insertDescBy] using h
  | cons y ys ih =>
    intro h
    simp only [insertDescBy] at h
    split at h
    · rcases List.mem_cons.mp h with h | h
      · exact Or.inl h
      · exact Or.inr h
    · rcases List.mem_cons.mp h with h | h
      · exact Or.inr (h ▸ List.mem_cons_self y ys)
      · rcases ih h with h' | h'
        · exact Or.inl h'
        · exact Or.inr (List.mem_cons_of_mem _ h')

/-- Membership after the sorting fold. -/
theorem mem_sortFold (x : PiiEntity) :
    ∀ (l acc : List PiiEntity),
      x ∈ l.foldl (fun acc e => insertDescBy (fun y => y.beginOffset.getD 0) e acc) acc →
      x ∈ acc ∨ x ∈ l := by
  intro l
  induction l with
  | nil => intro acc h; exact Or.inl h
  | cons y ys ih =>
    intro acc h
    rcases ih _ h with h' | h'
    · rcases mem_insertDescBy _ y x acc h' with h'' | h''
      · exact Or.inr (by simp [h''])
      · exact Or.inl h''
    · exact Or.inr (List.mem_cons_of_mem _ h')

/-- Membership in the sorted relevant list implies membership in the input. -/
theorem mem_sortDescBegin (x : PiiEntity) (l : List PiiEntity)
    (h : x ∈ sortDescBegin l) : x ∈ l := by
  rcases mem_sortFold x l [] h with h' | h'
  · cases h'
  · exact h'

/-- Tags accumulated by the `insertTag` fold over a list of entities come
from the accumulator or from an entity of the list. -/
theorem mem_foldl_insertTag (t : String) :
    ∀ (l : List PiiEntity) (acc : List String),
      t ∈ l.foldl (fun ts e => insertTag ts (e.type.getD "")) acc →
      t ∈ acc ∨ ∃ e ∈ l, e.type.getD "" = t := by
  intro l
  induction l with
  | nil => intro acc h; exact Or.inl h
  | cons y ys ih =>
    intro acc h
    rcases ih _ h with h' | h'
    · by_cases hy : (y.type.getD "") ∈ acc
      · simp only [insertTag, if_pos hy] at h'
        exact Or.inl h'
      · simp only [insertTag, if_neg hy, List.mem_append, List.mem_singleton] at h'
        rcases h' with h' | h'
        · exact Or.inl h'
        · exact Or.inr ⟨y, by simp, h'.symm⟩
    · rcases h' with ⟨e, he, ht⟩
      exact Or.inr ⟨e, List.mem_cons_of_mem _ he, ht⟩

/-- C4 counterexample: under the GDPR profile (whose `entity_types` set is
`{NAME, ADDRESS, DATE_TIME, PASSPORT_NUMBER, DRIVER_ID}`), an `AGE` entity
located by the NER client is still replaced by stage 2 — the profile's
entity-type allowlist is never passed to the NER wrapper, which filters by
its fixed default set only. -/
theorem c4_counterexample :
    (redactText "31".data gdprProfile cfgComprehendOn nerClientAge).redactedData.asStr =
      "[REDACTED:AGE]".data ∧
    (redactText "31".data gdprProfile cfgComprehendOn nerClientAge).redactionCount = 1 ∧
    (redactText "31".data gdprProfile cfgComprehendOn nerClientAge).redactedTypes = ["AGE"] ∧
    (∀ ts, gdprProfile.comprehendEntityTypes = some ts → "AGE" ∉ ts) := by
  refine ⟨by decide, by decide, by decide, ?_⟩
  intro ts hts
  cases hts.symm.trans (rfl : gdprProfile.comprehendEntityTypes = some _)
  decide

/-- C4 (amended): stage-2 NER redaction always filters by the fixed default
`REDACT_TYPES` set — every type it records is in that set — and the result
of `redactText` is independent of the profile's `entity_types` allowlist
(only the `stage1`/`stage2` switches matter). -/
theorem c4_stage2_fixed_type_set :
    (∀ (text : List Char) (es : List PiiEntity) (t : String),
        t ∈ (applyRedactions text es).2.2 → t ∈ REDACT_TYPES) ∧
    (∀ (text : List Char) (p₁ p₂ : ComplianceProfile) (config : ProxyConfig)
        (client : NerClient), p₁.stage1 = p₂.stage1 → p₁.stage2 = p₂.stage2 →
        redactText text p₁ config client = redactText text p₂ config client) := by
  constructor
  · intro text es t h
    simp only [applyRedactions] at h
    rcases mem_foldl_insertTag t _ [] h with h' | h'
    · cases h'
    · rcases h' with ⟨e, he, ht⟩
      have hin := mem_sortDescBegin e _ he
      rcases List.mem_filter.mp hin with ⟨_, hp⟩
      rcases he' : e.type with _ | ty
      · rw [he'] at hp; simp at hp
      · rw [he'] at hp ht
        simp only [Option.getD] at ht
        simp only [he', Bool.and_eq_true, decide_eq_true_eq] at hp
        rw [← ht]
        exact hp.1.1
  · intro text p₁ p₂ config client h1 h2
    simp only [redactText, h1, h2]

/-- C4 witness: the filter part at a concrete `AGE` redaction, and the
profile-independence part on two profiles differing only in their
entity-type allowlists. -/
theorem c4_stage2_fixed_type_set_witness :
    ("AGE" ∈ (applyRedactions "31".data [⟨some "AGE", some 0, some 2⟩]).2.2 →
      "AGE" ∈ REDACT_TYPES) ∧
    redactText "age 31".data gdprProfile cfgComprehendOn nerClientAge =
      redactText "age 31".data ⟨"GDPR", true, true, none⟩ cfgComprehendOn nerClientAge :=
  ⟨c4_stage2_fixed_type_set.1 "31".data [⟨some "AGE", some 0, some 2⟩] "AGE",
   c4_stage2_fixed_type_set.2 "age 31".data gdprProfile ⟨"GDPR", true, true, none⟩
     cfgComprehendOn nerClientAge rfl rfl⟩

end EPP

namespace EPP

/-! ## Claims C1, C2, C3: the assembled tool pipeline -/

/-- A non-truthy `isError` yields audit status `success`. -/
theorem statusOf_not_err (content : List Block) (isErr : Option Bool)
    (he : isErrTruthy isErr = false) :
    statusOf (.withContent content isErr) = "success" := by
  cases isErr with
  | none => rfl
  | some b => cases b <;> simp_all [isErrTruthy, statusOf]

/-- A truthy `isError` yields audit status `error`. -/
theorem statusOf_err (content : List Block) (isErr : Option Bool)
    (he : isErrTruthy isErr = true) :
    statusOf (.withContent content isErr) = "error" := by
  cases isErr with
  | none => simp [isErrTruthy] at he
  | some b => cases b <;> simp_all [isErrTruthy, statusOf]

/-- C2: in the assembled pipeline the audit middleware is the outermost
layer.  For every invocation the trace starts with the audit timer start
followed by the backend call and ends with the audit sink write; on a
successful, non-error, content-bearing response the observable actions are
exactly: timer start, backend call, the PII layer's annotation write (after
it rebuilt the response), then the audit sink write, and the single emitted
entry carries the redaction count and types of the summary the PII layer
attached, with the output size measured on the serialized redacted
response. -/
theorem c2_audit_outermost (config : ProxyConfig) (profile : ComplianceProfile)
    (client : NerClient) (hen : config.auditEnabled = true) :
    (∀ (backendFn : ToolRequest → Except String ToolResult) (req : ToolRequest),
      ∃ mid : List Ev, (runToolPipeline config profile client backendFn req).2.trace =
        .auditStart :: .backendCall :: mid ++ [.logWrite]) ∧
    (∀ (backendFn : ToolRequest → Except String ToolResult) (req : ToolRequest)
        (content : List Block) (isErr : Option Bool),
      backendFn req = .ok (.withContent content isErr) → isErrTruthy isErr = false →
      (runToolPipeline config profile client backendFn req).2.trace =
        [.auditStart, .backendCall, .annWrite, .logWrite] ∧
      ∃ e : AuditEntry,
        (runToolPipeline config profile client backendFn req).2.logged = [e] ∧
        e.redaction_count = (redactContent config profile client content).2.1 ∧
        e.redacted_types = (redactContent config profile client content).2.2 ∧
        e.output_size_bytes = utf8Len (stringifyResult
          (.withContent (redactContent config profile client content).1 isErr))) := by
  constructor
  · intro backendFn req
    rcases hb : backendFn req with err | r
    · refine ⟨[], ?_⟩
      simp only [runToolPipeline, compose, createAuditMiddleware, createPiiToolMiddleware,
        backendTerminal, hb, auditLog, hen, Bool.not_true, Bool.false_eq_true, if_false,
        pushEv, initState]
      simp
    · rcases r with raw | ⟨content, isErr⟩
      · refine ⟨[], ?_⟩
        simp only [runToolPipeline, compose, createAuditMiddleware, createPiiToolMiddleware,
          backendTerminal, hb, auditLog, hen, Bool.not_true, Bool.false_eq_true, if_false,
          pushEv, initState]
        simp
      · rcases hie : isErrTruthy isErr with _ | _
        · refine ⟨[.annWrite], ?_⟩
          simp only [runToolPipeline, compose, createAuditMiddleware, createPiiToolMiddleware,
            backendTerminal, hb, hie, Bool.false_eq_true, if_false, auditLog, hen,
            Bool.not_true, pushEv, initState]
          simp
        · refine ⟨[], ?_⟩
          simp only [runToolPipeline, compose, createAuditMiddleware, createPiiToolMiddleware,
            backendTerminal, hb, hie, if_true, auditLog, hen, Bool.not_true,
            Bool.false_eq_true, if_false, pushEv, initState]
          simp
  · intro backendFn req content isErr hb he
    simp only [runToolPipeline, compose, createAuditMiddleware, createPiiToolMiddleware,
      backendTerminal, hb, he, Bool.false_eq_true, if_false, auditLog, hen, Bool.not_true,
      pushEv, initState, sanitizeEntry, baseEntry]
    simp

/-- C1 counterexample: the audit stream can contain raw PII.  With a
request whose arguments hold an SSN and a clean upstream response, the
single emitted entry's `input_parameters` still contains the raw SSN —
applying stage 1 to the logged field would mask one value. -/
theorem c1_counterexample :
    (runToolPipeline ⟨"GDPR", true, "us-east-1", false⟩ ⟨"GDPR", true, false, none⟩
        nerClientNone
        (fun _ => .ok (.withContent [.text "mock response".data] none))
        ⟨"elastic_search", some (.obj (.cons "q".data (.str "123-45-6789".data) .nil))⟩).2.logged.map
      (fun e => (redactString e.input_parameters []).1.2) = [1] := by
  decide

/-- C1 (amended): the audit record is emitted after redaction — the
response the pipeline forwards and measures is the PII layer's redacted
rebuild, and the sink write happens after the annotation write — but the
`input_parameters` field is the serialized *raw* invocation arguments, only
length-truncated, so it can still contain values the active stages would
mask. -/
theorem c1_audit_after_redaction (config : ProxyConfig) (profile : ComplianceProfile)
    (client : NerClient) (backendFn : ToolRequest → Except String ToolResult)
    (req : ToolRequest) (content : List Block) (isErr : Option Bool)
    (hen : config.auditEnabled = true)
    (hb : backendFn req = .ok (.withContent content isErr))
    (he : isErrTruthy isErr = false) :
    (runToolPipeline config profile client backendFn req).1 =
      .ok (.withContent (redactContent config profile client content).1 isErr) ∧
    (runToolPipeline config profile client backendFn req).2.trace =
      [.auditStart, .backendCall, .annWrite, .logWrite] ∧
    ∃ e : AuditEntry,
      (runToolPipeline config profile client backendFn req).2.logged = [e] ∧
      e.input_parameters = truncInput (jsonStringify (req.arguments.getD (.obj .nil))) := by
  simp only [runToolPipeline, compose, createAuditMiddleware, createPiiToolMiddleware,
    backendTerminal, hb, he, Bool.false_eq_true, if_false, auditLog, hen, Bool.not_true,
    pushEv, initState, sanitizeEntry, baseEntry]
  simp

/-- C3 counterexample: on an upstream error response the annotation slot is
*absent*, not "present with count 0": the PII middleware returns before the
write, and the audit layer merely treats absence as zero. -/
theorem c3_counterexample :
    (runToolPipeline ⟨"GDPR", true, "us-east-1", false⟩ ⟨"GDPR", true, false, none⟩
        nerClientNone
        (fun _ => .ok (.withContent [.text "user@example.com not found".data] (some true)))
        ⟨"test_tool", none⟩).2.ann = none ∧
    (runToolPipeline ⟨"GDPR", true, "us-east-1", false⟩ ⟨"GDPR", true, false, none⟩
        nerClientNone
        (fun _ => .ok (.withContent [.text "user@example.com not found".data] (some true)))
        ⟨"test_tool", none⟩).2.ann ≠ some ⟨0, []⟩ := by
  exact ⟨by decide, by decide⟩

/-- C3 (amended): for an upstream response with truthy `is_error` the
content passes through unchanged and the audit entry has status `error`
with redaction count 0 and no types — but the request's annotation slot
remains absent (the audit layer treats absence as zero), rather than being
present with count 0. -/
theorem c3_error_passthrough (config : ProxyConfig) (profile : ComplianceProfile)
    (client : NerClient) (backendFn : ToolRequest → Except String ToolResult)
    (req : ToolRequest) (content : List Block) (isErr : Option Bool)
    (hen : config.auditEnabled = true)
    (hb : backendFn req = .ok (.withContent content isErr))
    (he : isErrTruthy isErr = true) :
    (runToolPipeline config profile client backendFn req).1 =
      .ok (.withContent content isErr) ∧
    (runToolPipeline config profile client backendFn req).2.ann = none ∧
    ∃ e : AuditEntry,
      (runToolPipeline config profile client backendFn req).2.logged = [e] ∧
      e.status = "error" ∧ e.redaction_count = 0 ∧ e.redacted_types = [] := by
  simp only [runToolPipeline, compose, createAuditMiddleware, createPiiToolMiddleware,
    backendTerminal, hb, he, if_true, auditLog, hen, Bool.not_true, Bool.false_eq_true,
    if_false, pushEv, initState, sanitizeEntry, baseEntry]
  simp [statusOf_err content isErr he]

end EPP

namespace EPP

/-- Default config of the test fixtures (`makeConfig`): audit on, stage 2 off. -/
def cfgDefault : ProxyConfig := ⟨"GDPR", true, "us-east-1", false⟩

/-- The GDPR profile as used in the middleware tests: stage 1 only. -/
def gdprStage1 : ComplianceProfile := ⟨"GDPR", true, false, none⟩

/-- A request whose arguments hold an SSN. -/
def reqSsnArg : ToolRequest :=
  ⟨"elastic_search", some (.obj (.cons "q".data (.str "123-45-6789".data) .nil))⟩

/-- A backend returning a clean text response. -/
def backendClean : ToolRequest → Except String ToolResult :=
  fun _ => .ok (.withContent [.text "mock response".data] none)

/-- A backend returning an error response carrying an email address. -/
def backendError : ToolRequest → Except String ToolResult :=
  fun _ => .ok (.withContent [.text "user@example.com not found".data] (some true))

/-- C2 witness: the ordering theorem at the concrete fixture pipeline. -/
theorem c2_audit_outermost_witness :
    cfgDefault.auditEnabled = true ∧
    ((runToolPipeline cfgDefault gdprStage1 nerClientNone backendClean reqSsnArg).2.trace =
      [.auditStart, .backendCall, .annWrite, .logWrite] ∧
    ∃ e : AuditEntry,
      (runToolPipeline cfgDefault gdprStage1 nerClientNone backendClean reqSsnArg).2.logged = [e] ∧
      e.redaction_count =
        (redactContent cfgDefault gdprStage1 nerClientNone [.text "mock response".data]).2.1 ∧
      e.redacted_types =
        (redactContent cfgDefault gdprStage1 nerClientNone [.text "mock response".data]).2.2 ∧
      e.output_size_bytes = utf8Len (stringifyResult (.withContent
        (redactContent cfgDefault gdprStage1 nerClientNone [.text "mock response".data]).1 none))) :=
  ⟨rfl, (c2_audit_outermost cfgDefault gdprStage1 nerClientNone rfl).2 backendClean reqSsnArg
    [.text "mock response".data] none rfl rfl⟩

/-- C1 witness: the emission-after-redaction theorem at the fixture pipeline. -/
theorem c1_audit_after_redaction_witness :
    cfgDefault.auditEnabled = true ∧
    ((runToolPipeline cfgDefault gdprStage1 nerClientNone backendClean reqSsnArg).1 =
      .ok (.withContent
        (redactContent cfgDefault gdprStage1 nerClientNone [.text "mock response".data]).1 none) ∧
    (runToolPipeline cfgDefault gdprStage1 nerClientNone backendClean reqSsnArg).2.trace =
      [.auditStart, .backendCall, .annWrite, .logWrite] ∧
    ∃ e : AuditEntry,
      (runToolPipeline cfgDefault gdprStage1 nerClientNone backendClean reqSsnArg).2.logged = [e] ∧
      e.input_parameters =
        truncInput (jsonStringify (reqSsnArg.arguments.getD (.obj .nil)))) :=
  ⟨rfl, c1_audit_after_redaction cfgDefault gdprStage1 nerClientNone backendClean reqSsnArg
    [.text "mock response".data] none rfl rfl rfl⟩

/-- C3 witness: the error-passthrough theorem at the fixture pipeline. -/
theorem c3_error_passthrough_witness :
    cfgDefault.auditEnabled = true ∧
    isErrTruthy (some true) = true ∧
    ((runToolPipeline cfgDefault gdprStage1 nerClientNone backendError ⟨"test_tool", none⟩).1 =
      .ok (.withContent [.text "user@example.com not found".data] (some true)) ∧
    (runToolPipeline cfgDefault gdprStage1 nerClientNone backendError ⟨"test_tool", none⟩).2.ann = none ∧
    ∃ e : AuditEntry,
      (runToolPipeline cfgDefault gdprStage1 nerClientNone backendError ⟨"test_tool", none⟩).2.logged = [e] ∧
      e.status = "error" ∧ e.redaction_count = 0 ∧ e.redacted_types = []) :=
  ⟨rfl, rfl, c3_error_passthrough cfgDefault gdprStage1 nerClientNone backendError
    ⟨"test_tool", none⟩ [.text "user@example.com not found".data] (some true) rfl rfl rfl⟩

end EPP

namespace EPP

/-! ## Claim C9: input-parameter truncation -/

/-- Modelled from the claim's words, for comparison only: truncation of a
string at a UTF-8 *byte* budget (the largest character-aligned cut whose
encoding does not exceed the budget). -/
def utf8Take (n : Nat) : List Char → List Char
  | [] => []
  | c :: rest => if utf8Bytes c ≤ n then c :: utf8Take (n - utf8Bytes c) rest else []

/-- C9 counterexample: truncation is by UTF-16 code units, not bytes.  An
entry whose `input_parameters` is 300 copies of `é` (600 UTF-8 bytes, JS
length 300) is emitted verbatim, with no `...[truncated]` suffix — the
byte-based truncation the claim describes would have cut it at 250
characters. -/
theorem c9_counterexample :
    (auditLog true
        { baseEntry ⟨"elastic_search", none⟩ "GDPR" 0 0 with
          input_parameters := List.replicate 300 'é' } initState).logged.map
      (fun e => e.input_parameters) = [List.replicate 300 'é'] ∧
    utf8Len (List.replicate 300 'é') = 600 ∧
    (List.replicate 300 'é' : List Char) ≠
      utf8Take 500 (List.replicate 300 'é') ++ "...[truncated]".data := by
  refine ⟨?_, ?_, ?_⟩
  · set_option maxRecDepth 4000 in decide
  · set_option maxRecDepth 4000 in decide
  · set_option maxRecDepth 4000 in decide

/-- C9 (amended): for every emitted entry, `input_parameters` equals the
serialized arguments when they are at most 500 UTF-16 code units long (JS
string length), and otherwise the first 500 code units followed by the
literal `...[truncated]`; when audit is disabled nothing is emitted. -/
theorem c9_input_truncation (enabled : Bool) (e : AuditEntry) (s : PState)
    (hen : enabled = true) :
    (auditLog enabled e s).logged = s.logged ++ [sanitizeEntry e] ∧
    (utf16Len e.input_parameters ≤ MAX_INPUT_LOG_LENGTH →
      (sanitizeEntry e).input_parameters = e.input_parameters) ∧
    (utf16Len e.input_parameters > MAX_INPUT_LOG_LENGTH →
      (sanitizeEntry e).input_parameters =
        utf16Take MAX_INPUT_LOG_LENGTH e.input_parameters ++ "...[truncated]".data) ∧
    (auditLog false e s).logged = s.logged := by
  refine ⟨by simp [auditLog, hen, pushEv], ?_, ?_, by simp [auditLog]⟩
  · intro h
    simp [sanitizeEntry, truncInput, Nat.not_lt.mpr h]
  · intro h
    simp [sanitizeEntry, truncInput, h]

/-- C9 witness: the truncation theorem at a 600-character entry. -/
theorem c9_input_truncation_witness :
    utf16Len (List.replicate 600 'x') > MAX_INPUT_LOG_LENGTH ∧
    (sanitizeEntry { baseEntry ⟨"elastic_search", none⟩ "GDPR" 0 0 with
        input_parameters := List.replicate 600 'x' }).input_parameters =
      utf16Take MAX_INPUT_LOG_LENGTH (List.replicate 600 'x') ++ "...[truncated]".data :=
  ⟨by set_option maxRecDepth 4000 in decide,
   (c9_input_truncation true
      { baseEntry ⟨"elastic_search", none⟩ "GDPR" 0 0 with
        input_parameters := List.replicate 600 'x' } initState rfl).2.2.1
     (by set_option maxRecDepth 4000 in decide)⟩

end EPP

namespace EPP

/-! ## Claim C8: chunking -/

theorem utf8Len_nil : utf8Len [] = 0 := rfl

theorem utf8Len_cons (c : Char) (l : List Char) :
    utf8Len (c :: l) = utf8Bytes c + utf8Len l := by
  simp [utf8Len]

theorem utf8Len_replicate (n : Nat) (c : Char) :
    utf8Len (List.replicate n c) = n * utf8Bytes c := by
  induction n with
  | zero => simp [utf8Len]
  | succ k ih =>
    rw [List.replicate_succ, utf8Len_cons, ih]
    ring

/-- A string without newlines is a single line. -/
theorem splitLines_no_newline :
    ∀ l : List Char, '\n' ∉ l → splitLines l = [l] := by
  intro l
  induction l with
  | nil => intro _; rfl
  | cons c rest ih =>
    intro h
    have hc : ¬(c = '\n') := fun hcc => h (hcc ▸ List.mem_cons_self c rest)
    have hr : splitLines rest = [rest] := ih fun hm => h (List.mem_cons_of_mem _ hm)
    simp only [splitLines]
    rw [if_neg hc, hr]

/-- The accumulation loop on two lines where the second is over-long: the
first line is kept as `current`, then pushed when the joined candidate
exceeds the limit, and the over-long second line is pushed whole at the
end — it is never character-split, because that branch requires an empty
`current`. -/
theorem chunkLoop_push_overlong (l1 R : List Char)
    (h1 : utf8Len l1 ≤ CHUNK_BYTE_LIMIT) (h1e : l1.isEmpty = false)
    (h2 : utf8Len (l1 ++ '\n' :: R) > CHUNK_BYTE_LIMIT) (hRe : R.isEmpty = false) :
    chunkLoop [l1, R] [] [] = [l1, R] := by
  have e1 : chunkLoop [l1, R] [] [] = chunkLoop [R] l1 [] := by
    conv_lhs => rw [chunkLoop]
    simp [Nat.not_lt.mpr h1]
  have e2 : chunkLoop [R] l1 [] = chunkLoop [] R [l1] := by
    conv_lhs => rw [chunkLoop]
    simp [h1e, h2]
  have e3 : chunkLoop [] R [l1] = [l1, R] := by
    rw [chunkLoop]
    simp [hRe]
  rw [e1, e2, e3]

/-- C8: the claimed chunk byte bound does not hold on the code (contradicting
the function's own doc comment): a line longer than the limit that follows a
non-empty accumulated chunk is pushed whole, never character-split.  On
`"a\n" ++ "b"*4501` the chunks are `["a", "b"*4501]`, and the second chunk
is 4,501 UTF-8 bytes, above the 4,500-byte cap (joining with `\n` happens to
restore this input, but the bound is violated; on a single over-long line the
character-split pieces are re-joined with `\n` separators that were never in
the input, breaking the round-trip as well). -/
theorem c8_oversized_chunk :
    chunkText ('a' :: '\n' :: List.replicate 4501 'b') =
      [['a'], List.replicate 4501 'b'] ∧
    utf8Len (List.replicate 4501 'b') > CHUNK_BYTE_LIMIT := by
  have hb : utf8Bytes 'b' = 1 := by decide
  have hrep : utf8Len (List.replicate 4501 'b') = 4501 := by
    rw [utf8Len_replicate, hb, Nat.mul_one]
  have hnl : ('\n') ∉ List.replicate 4501 'b' := by
    intro h
    have := List.eq_of_mem_replicate h
    exact absurd this (by decide)
  have htot : utf8Len ('a' :: '\n' :: List.replicate 4501 'b') = 4503 := by
    rw [utf8Len_cons, utf8Len_cons, hrep]
    decide
  have hs1 : splitLines ('\n' :: List.replicate 4501 'b') =
      [] :: [List.replicate 4501 'b'] := by
    rw [splitLines, if_pos rfl, splitLines_no_newline _ hnl]
  have hsplit : splitLines ('a' :: '\n' :: List.replicate 4501 'b') =
      [['a'], List.replicate 4501 'b'] := by
    rw [splitLines, if_neg (by decide : ¬('a' = '\n')), hs1]
  have hRe : (List.replicate 4501 'b').isEmpty = false := by
    rw [List.replicate_succ]
    rfl
  refine ⟨?_, by rw [hrep]; decide⟩
  rw [chunkText, if_neg (by rw [htot]; decide), hsplit]
  exact chunkLoop_push_overlong ['a'] (List.replicate 4501 'b')
    (by decide)
    rfl
    (by rw [show (['a'] ++ '\n' :: List.replicate 4501 'b') =
          'a' :: '\n' :: List.replicate 4501 'b' from rfl, htot]; decide)
    hRe

end EPP
